import Mathlib

/-!
Verification of `rio_tiler_circle.reader.COGReader.tile` (file
`src/rio_tiler_circle/reader.py`), a single override of the tile-reading
method of an external raster reader.

Shallow embedding conventions:

* Geographic bounds are rationals (`ℚ`); the method's arithmetic on them
  (`/`, `*`, `+`, `-`) is exact field arithmetic.
* The circle vertices use `Real.cos` / `Real.sin`, so the ring lives in `ℝ`.
* Python's `x % 0.5` with a positive modulus is floored remainder: `pyMod`.
* Python's `int(...)` on a number truncates toward zero: `ratTrunc`.
* Python dicts are association lists with Python's `update` semantics
  (replace in place when the key exists, append otherwise): `dictInsert`.
* The caller-supplied `vrt_options` dict is a mutable object; we model
  object identity with a small heap (`Heap`) of dicts addressed by `Nat`
  references, so in-place mutation is observable.
* The external collaborators (`tile_exists`, `tms.xy_bounds`, `self.input`,
  `tms.rasterio_crs`, `rio_tiler.utils.create_cutline`) are parameters of
  the `Reader` structure.
* The windowed read `self.part(...)` is external: the embedding returns the
  exact argument bundle (`PartCall`) handed to it.  A `.error` result means
  the method raised before reaching `self.part`, i.e. no read is performed.
-/

/-- A geographic bounding box `(left, bottom, right, top)`, the shape of
`morecantile.BoundingBox`. -/
structure BBox where
  left : ℚ
  bottom : ℚ
  right : ℚ
  top : ℚ
  deriving DecidableEq, Repr

/-- The errors `COGReader.tile` can raise itself: `TileOutsideBounds` and
`IncorrectTileBuffer`, each carrying its message. -/
inductive TileErr where
  | tileOutsideBounds (msg : String)
  | incorrectTileBuffer (msg : String)
  deriving DecidableEq, Repr

/-- Python's `%` for a positive rational modulus (floored remainder), the
semantics of `tile_buffer % 0.5` on exact values. -/
def pyMod (a m : ℚ) : ℚ :=
  a - m * ((a / m).floor : ℚ)

/-- Python's `int(...)` conversion: truncation toward zero. -/
def ratTrunc (q : ℚ) : Int :=
  if 0 ≤ q then q.floor else -((-q).floor)

/-- The GeoJSON feature built in `COGReader.tile`: the `"type"` tag, the
geometry's `"type"` tag, and the single linear ring of the polygon (the
`"properties"` member is always the empty object and is omitted). -/
structure Feature where
  ftype : String
  gtype : String
  ring : List (ℝ × ℝ)

/-- Build the feature exactly as the source does: a `"Feature"` holding a
`"Polygon"` with one ring. -/
def mkFeature (ring : List (ℝ × ℝ)) : Feature :=
  ⟨"Feature", "Polygon", ring⟩

/-- Python's `math.radians`: degrees to radians, `x * pi / 180`. -/
noncomputable def mathRadians (x : ℝ) : ℝ :=
  x * Real.pi / 180

/-- The circle ring built by the `for theta in range(0, 360, 10)` loop of
`COGReader.tile`: center `((left+right)/2, (bottom+top)/2)`, radius
`(right-left)/2`, one vertex per angle `0, 10, ..., 350` degrees. -/
noncomputable def circleRing (left bottom right top : ℝ) : List (ℝ × ℝ) :=
  let center : ℝ × ℝ := ((left + right) / 2, (bottom + top) / 2)
  let radius : ℝ := (right - left) / 2
  (List.range' 0 36 10).map fun theta : ℕ =>
    (center.1 + radius * Real.cos (mathRadians (theta : ℝ)),
     center.2 + radius * Real.sin (mathRadians (theta : ℝ)))

/-- A Python dict with `String` keys and values, as an ordered association
list with distinct keys maintained by `dictInsert`. -/
abbrev Dict : Type :=
  List (String × String)

/-- Python's `d[k] = v` / `d.update({k: v})`: replace the value in place when
the key is present (insertion order kept), append the pair otherwise. -/
def dictInsert (d : Dict) (k v : String) : Dict :=
  if d.any (fun p => p.1 = k) then
    d.map fun p => if p.1 = k then (k, v) else p
  else
    d ++ [(k, v)]

/-- Python's `d.get(k)`: the value stored under `k`, if any. -/
def dictGet (d : Dict) (k : String) : Option String :=
  (d.find? (fun p => p.1 = k)).map Prod.snd

/-- The store of mutable dict objects; a `Nat` is a reference to a dict. -/
abbrev Heap : Type :=
  List Dict

/-- Dereference a dict reference. -/
def heapGet (h : Heap) (r : Nat) : Dict :=
  h.getD r []

/-- Overwrite the dict object at a reference (in-place mutation). -/
def heapSet (h : Heap) (r : Nat) (d : Dict) : Heap :=
  h.set r d

/-- The `**kwargs` of `COGReader.tile`: an optional caller-supplied
`vrt_options` dict (a reference to a mutable dict in the heap, extracted by
`kwargs.pop("vrt_options", {})`) plus the remaining keyword options. -/
structure Kwargs where
  vrtOptions : Option Nat
  rest : List (String × String)
  deriving DecidableEq, Repr

/-- The argument bundle handed to the external windowed read
`self.part(...)`, field for field. -/
structure PartCall where
  bounds : BBox
  dst_crs : String
  bounds_crs : Option String
  height : Int
  width : Int
  max_size : Option Int
  indexes : Option (List Int)
  expression : Option String
  vrt_options : Dict
  kwargs : List (String × String)
  deriving DecidableEq, Repr

/-- The ambient `COGReader` object: the external collaborators the `tile`
method consults.  `createCutline` stands for
`rio_tiler.utils.create_cutline(self.dataset, feat, geometry_crs)`, whose
result is an opaque cutline string. -/
structure Reader where
  tileExists : Int → Int → Int → Bool
  xyBounds : Int → Int → Int → BBox
  input : String
  tmsCRS : String
  createCutline : Feature → String → String

/-- The `TileOutsideBounds` message of the source:
`f"Tile {tile_z}/{tile_x}/{tile_y} is outside {self.input} bounds"`. -/
def outsideMessage (R : Reader) (x y z : Int) : String :=
  "Tile " ++ toString z ++ "/" ++ toString x ++ "/" ++ toString y ++
    " is outside " ++ R.input ++ " bounds"

/-- The `IncorrectTileBuffer` message of the source. -/
def bufferMessage : String :=
  "`tile_buffer` must be a multiple of `0.5` (e.g: 0.5, 1, 1.5, ...)."

/-- The buffered bounding box of the source: expand each side by
`tile_buffer` pixels at the tile's per-axis resolution
(`x_res = (right-left)/tilesize`, `y_res = (top-bottom)/tilesize`). -/
def bufferedBounds (tb : BBox) (tilesize : Int) (b : ℚ) : BBox :=
  let x_res := (tb.right - tb.left) / (tilesize : ℚ)
  let y_res := (tb.top - tb.bottom) / (tilesize : ℚ)
  ⟨tb.left - x_res * b, tb.bottom - y_res * b,
   tb.right + x_res * b, tb.top + y_res * b⟩

/-- The buffer-handling block of `COGReader.tile`: absent buffer leaves
bounds and size alone; a buffer failing `tile_buffer % 0.5` raises
`IncorrectTileBuffer`; otherwise the bounds are expanded and the size grows
by `int(tile_buffer * 2)`. -/
def bufferApply (tb0 : BBox) (tilesize : Int) (tile_buffer : Option ℚ) :
    Except TileErr (BBox × Int) :=
  match tile_buffer with
  | none => .ok (tb0, tilesize)
  | some b =>
    if pyMod b (1 / 2) = 0 then
      .ok (bufferedBounds tb0 tilesize b, tilesize + ratTrunc (b * 2))
    else
      .error (.incorrectTileBuffer bufferMessage)

/-- The embedding of `COGReader.tile`.  It either raises (`.error`) before
any read, or returns the exact arguments of the delegated `self.part` call
together with the heap after the in-place `vrt_options.update`. -/
noncomputable def Reader.tile (R : Reader) (x y z : Int) (tilesize : Int)
    (indexes : Option (List Int)) (expression : Option String)
    (tile_buffer : Option ℚ) (kwargs : Kwargs) (heap : Heap) :
    Except TileErr (PartCall × Heap) :=
  if R.tileExists x y z then
    match bufferApply (R.xyBounds x y z) tilesize tile_buffer with
    | .error e => .error e
    | .ok (tile_bounds, outsize) =>
      let ring := circleRing (tile_bounds.left : ℝ) (tile_bounds.bottom : ℝ)
        (tile_bounds.right : ℝ) (tile_bounds.top : ℝ)
      let cutline := R.createCutline (mkFeature ring) R.tmsCRS
      match kwargs.vrtOptions with
      | some r =>
        let d := dictInsert (heapGet heap r) "cutline" cutline
        .ok (⟨tile_bounds, R.tmsCRS, none, outsize, outsize, none,
              indexes, expression, d, kwargs.rest⟩,
             heapSet heap r d)
      | none =>
        .ok (⟨tile_bounds, R.tmsCRS, none, outsize, outsize, none,
              indexes, expression, dictInsert [] "cutline" cutline,
              kwargs.rest⟩,
             heap)
  else
    .error (.tileOutsideBounds (outsideMessage R x y z))

/-- The cutline the method derives for a (possibly buffered) bounding box:
`create_cutline(self.dataset, feat, geometry_crs=self.tms.rasterio_crs)` on
the circle feature inscribed in the box. -/
noncomputable def tileCut (R : Reader) (bds : BBox) : String :=
  R.createCutline
    (mkFeature (circleRing (bds.left : ℝ) (bds.bottom : ℝ)
      (bds.right : ℝ) (bds.top : ℝ)))
    R.tmsCRS

/-- The dict object `kwargs.pop("vrt_options", {})` evaluates to: the
caller's dict when a reference was supplied, a fresh empty dict otherwise. -/
def callerDict (kw : Kwargs) (hp : Heap) : Dict :=
  match kw.vrtOptions with
  | some r => heapGet hp r
  | none => []

/-- The vrt-options dict after `vrt_options.update({"cutline": cutline})`. -/
noncomputable def mergedVrt (R : Reader) (bds : BBox) (kw : Kwargs)
    (hp : Heap) : Dict :=
  dictInsert (callerDict kw hp) "cutline" (tileCut R bds)

/-- The heap after the in-place update: the caller's dict object is
overwritten when a reference was supplied, nothing else changes. -/
def heapAfter (kw : Kwargs) (hp : Heap) (d : Dict) : Heap :=
  match kw.vrtOptions with
  | some r => heapSet hp r d
  | none => hp

/-- A concrete reader used by witnesses and counterexamples: every tile
exists, every tile has bounds `(0, 0, 256, 256)`. -/
def demoReader : Reader :=
  ⟨fun _ _ _ => true, fun _ _ _ => ⟨0, 0, 256, 256⟩, "cog.tif", "epsg:3857",
   fun _ _ => "CUTLINE"⟩

/-- A concrete reader whose coverage is empty: every tile is outside. -/
def emptyReader : Reader :=
  ⟨fun _ _ _ => false, fun _ _ _ => ⟨0, 0, 256, 256⟩, "cog.tif", "epsg:3857",
   fun _ _ => "CUTLINE"⟩

/-- `Rat.floor` agrees with the mathematical floor. -/
theorem ratFloor_eq_intFloor (q : ℚ) : q.floor = ⌊q⌋ :=
  (Rat.floor_def' q).trans Rat.floor_def.symm

/-- A rational passes the `tile_buffer % 0.5` check exactly when it is an
integer multiple of `1/2` (negative multiples included, since Python's `%`
with a positive modulus is floored). -/
theorem pyMod_half_eq_zero_iff (b : ℚ) :
    pyMod b (1 / 2) = 0 ↔ ∃ k : ℤ, b = (k : ℚ) / 2 := by
  unfold pyMod
  rw [ratFloor_eq_intFloor]
  constructor
  · intro h
    have hdiv : b / (1 / 2) = 2 * b := by ring
    rw [hdiv] at h
    exact ⟨⌊2 * b⌋, by linarith⟩
  · rintro ⟨k, rfl⟩
    have h2 : ((k : ℚ) / 2) / (1 / 2) = (k : ℚ) := by ring
    rw [h2, Int.floor_intCast]
    ring

/-- Truncation toward zero is the identity on integers. -/
theorem ratTrunc_intCast (k : Int) : ratTrunc (k : ℚ) = k := by
  unfold ratTrunc
  by_cases h : (0 : ℚ) ≤ (k : ℚ)
  · rw [if_pos h, ratFloor_eq_intFloor, Int.floor_intCast]
  · rw [if_neg h, ← Int.cast_neg, ratFloor_eq_intFloor, Int.floor_intCast,
      neg_neg]

/-- For a buffer passing the `% 0.5` check, `int(tile_buffer * 2)` is exactly
twice the buffer. -/
theorem ratTrunc_two_mul_of_half (b : ℚ) (hb : pyMod b (1 / 2) = 0) :
    ((ratTrunc (b * 2) : ℤ) : ℚ) = 2 * b := by
  obtain ⟨k, rfl⟩ := (pyMod_half_eq_zero_iff b).mp hb
  have h2 : (k : ℚ) / 2 * 2 = (k : ℚ) := by ring
  rw [h2, ratTrunc_intCast]
  ring

example : pyMod (3 / 10) (1 / 2) = 3 / 10 := by
  norm_num [pyMod, ratFloor_eq_intFloor]
example : pyMod (1 / 2) (1 / 2) = 0 := by
  norm_num [pyMod, ratFloor_eq_intFloor]
example : pyMod (-1 / 2) (1 / 2) = 0 := by
  norm_num [pyMod, ratFloor_eq_intFloor]
example : pyMod (-1 / 4) (1 / 2) = 1 / 4 := by
  norm_num [pyMod, ratFloor_eq_intFloor]
example : ratTrunc ((1 / 2) * 2) = 1 := by
  norm_num [ratTrunc, ratFloor_eq_intFloor]
example : ratTrunc ((-1 / 2) * 2) = -1 := by
  norm_num [ratTrunc, ratFloor_eq_intFloor]
example : ratTrunc (7 / 2) = 3 := by
  norm_num [ratTrunc, ratFloor_eq_intFloor]
example : ratTrunc (-7 / 2) = -3 := by
  norm_num [ratTrunc, ratFloor_eq_intFloor]
example : List.range' 0 36 10 = (List.range 36).map fun k => 10 * k := by decide

/-- Replacing the value under key `k` yields `v` under `k`, provided some
entry with key `k` exists. -/
theorem dictGet_mapReplace_self (d : Dict) (k v : String)
    (h : d.any (fun p => p.1 = k) = true) :
    dictGet (d.map fun p => if p.1 = k then (k, v) else p) k = some v := by
  induction d with
  | nil => simp at h
  | cons hd tl ih =>
    by_cases h1 : hd.1 = k
    · rw [List.map_cons, if_pos h1]
      unfold dictGet
      rw [List.find?_cons_of_pos _ (by simp)]
      rfl
    · have h2 : tl.any (fun p => p.1 = k) = true := by
        simp only [List.any_cons, Bool.or_eq_true, decide_eq_true_eq] at h
        tauto
      rw [List.map_cons, if_neg h1]
      unfold dictGet
      rw [List.find?_cons_of_neg _ (by simpa using h1)]
      exact ih h2

/-- Replacing the value under key `k` leaves every other key's value
unchanged. -/
theorem dictGet_mapReplace_ne (d : Dict) (k v q : String) (hq : q ≠ k) :
    dictGet (d.map fun p => if p.1 = k then (k, v) else p) q = dictGet d q := by
  induction d with
  | nil => rfl
  | cons hd tl ih =>
    by_cases h1 : hd.1 = k
    · rw [List.map_cons, if_pos h1]
      unfold dictGet
      rw [List.find?_cons_of_neg _ (by simpa using Ne.symm hq),
        List.find?_cons_of_neg _ (by simp [h1, Ne.symm hq])]
      exact ih
    · rw [List.map_cons, if_neg h1]
      by_cases h3 : hd.1 = q
      · unfold dictGet
        rw [List.find?_cons_of_pos _ (by simp [h3]),
          List.find?_cons_of_pos _ (by simp [h3])]
      · unfold dictGet
        rw [List.find?_cons_of_neg _ (by simpa using h3),
          List.find?_cons_of_neg _ (by simpa using h3)]
        exact ih

/-- Appending a fresh `(k, v)` entry makes `v` the value under `k`, provided
no entry with key `k` existed. -/
theorem dictGet_appendNew_self (d : Dict) (k v : String)
    (h : d.any (fun p => p.1 = k) = false) :
    dictGet (d ++ [(k, v)]) k = some v := by
  unfold dictGet
  rw [List.find?_append]
  have h0 : d.find? (fun p => p.1 = k) = none := by
    rw [List.find?_eq_none]
    intro x hx hc
    have h2 : d.any (fun p => p.1 = k) = true := List.any_eq_true.mpr ⟨x, hx, hc⟩
    rw [h] at h2
    exact Bool.false_ne_true h2
  rw [h0, Option.none_or]
  simp [List.find?]

/-- Appending a fresh `(k, v)` entry leaves every other key's value
unchanged. -/
theorem dictGet_appendNew_ne (d : Dict) (k v q : String) (hq : q ≠ k) :
    dictGet (d ++ [(k, v)]) q = dictGet d q := by
  unfold dictGet
  rw [List.find?_append]
  have h0 : List.find? (fun p => p.1 = q) [(k, v)] = none := by
    simp [List.find?, Ne.symm hq]
  rw [h0, Option.or_none]

/-- Updating a key is the only change `dictInsert` makes: the updated key
reads back the new value. -/
theorem dictGet_dictInsert_self (d : Dict) (k v : String) :
    dictGet (dictInsert d k v) k = some v := by
  unfold dictInsert
  by_cases h : d.any (fun p => p.1 = k)
  · rw [if_pos h]
    exact dictGet_mapReplace_self d k v h
  · rw [if_neg h]
    exact dictGet_appendNew_self d k v (Bool.eq_false_iff.mpr h)

/-- Updating a key is the only change `dictInsert` makes: every other key
reads back its old value. -/
theorem dictGet_dictInsert_ne (d : Dict) (k v q : String) (hq : q ≠ k) :
    dictGet (dictInsert d k v) q = dictGet d q := by
  unfold dictInsert
  by_cases h : d.any (fun p => p.1 = k)
  · rw [if_pos h]
    exact dictGet_mapReplace_ne d k v q hq
  · rw [if_neg h]
    exact dictGet_appendNew_ne d k v q hq

/-- Writing through a valid reference puts the new dict at that address. -/
theorem heapGet_heapSet_self (hp : Heap) (r : Nat) (d : Dict)
    (h : r < hp.length) :
    heapGet (heapSet hp r d) r = d := by
  unfold heapGet heapSet
  rw [List.getD_eq_getElem?_getD, List.getElem?_set_self',
    List.getElem?_eq_getElem h]
  rfl

/-- Writing through a reference leaves every other address untouched. -/
theorem heapGet_heapSet_ne (hp : Heap) (r : Nat) (d : Dict) (r2 : Nat)
    (h : r2 ≠ r) :
    heapGet (heapSet hp r d) r2 = heapGet hp r2 := by
  unfold heapGet heapSet
  rw [List.getD_eq_getElem?_getD, List.getElem?_set_ne (Ne.symm h),
    ← List.getD_eq_getElem?_getD]

/-- `bufferApply` with no buffer is the identity on bounds and size. -/
theorem bufferApply_none (tb0 : BBox) (ts : Int) :
    bufferApply tb0 ts none = .ok (tb0, ts) :=
  rfl

/-- `bufferApply` on a buffer passing the `% 0.5` check expands the bounds
and grows the size by `int(tile_buffer * 2)`. -/
theorem bufferApply_ok (tb0 : BBox) (ts : Int) (b : ℚ)
    (hb : pyMod b (1 / 2) = 0) :
    bufferApply tb0 ts (some b) =
      .ok (bufferedBounds tb0 ts b, ts + ratTrunc (b * 2)) := by
  simp only [bufferApply]
  rw [if_pos hb]

/-- `bufferApply` on a buffer failing the `% 0.5` check raises
`IncorrectTileBuffer`. -/
theorem bufferApply_err (tb0 : BBox) (ts : Int) (b : ℚ)
    (hb : pyMod b (1 / 2) ≠ 0) :
    bufferApply tb0 ts (some b) =
      .error (.incorrectTileBuffer bufferMessage) := by
  simp only [bufferApply]
  rw [if_neg hb]

/-- Unfolding of `Reader.tile` on an uncovered tile address. -/
theorem tile_outside (R : Reader) (x y z ts : Int)
    (idx : Option (List Int)) (expr : Option String) (tb : Option ℚ)
    (kw : Kwargs) (hp : Heap) (h : R.tileExists x y z = false) :
    R.tile x y z ts idx expr tb kw hp =
      .error (.tileOutsideBounds (outsideMessage R x y z)) := by
  simp [Reader.tile, h]

/-- Unfolding of `Reader.tile` on a covered tile address with a rejected
buffer. -/
theorem tile_buffer_err (R : Reader) (x y z ts : Int)
    (idx : Option (List Int)) (expr : Option String) (b : ℚ)
    (kw : Kwargs) (hp : Heap)
    (hex : R.tileExists x y z = true) (hb : pyMod b (1 / 2) ≠ 0) :
    R.tile x y z ts idx expr (some b) kw hp =
      .error (.incorrectTileBuffer bufferMessage) := by
  simp [Reader.tile, hex, bufferApply_err _ _ _ hb]

/-- Unfolding of `Reader.tile` on a covered tile address with an accepted
(or absent) buffer: the delegated `part` call and the updated heap. -/
theorem tile_ok (R : Reader) (x y z ts : Int)
    (idx : Option (List Int)) (expr : Option String) (tb : Option ℚ)
    (kw : Kwargs) (hp : Heap) (bds : BBox) (sz : Int)
    (hex : R.tileExists x y z = true)
    (hok : bufferApply (R.xyBounds x y z) ts tb = .ok (bds, sz)) :
    R.tile x y z ts idx expr tb kw hp =
      .ok (⟨bds, R.tmsCRS, none, sz, sz, none, idx, expr,
            mergedVrt R bds kw hp, kw.rest⟩,
           heapAfter kw hp (mergedVrt R bds kw hp)) := by
  obtain ⟨vr, rest⟩ := kw
  cases vr <;>
    simp [Reader.tile, hex, hok, mergedVrt, callerDict, heapAfter, tileCut]

/-- Concrete evaluation: `0.3 % 0.5` is nonzero, so 0.3 is rejected. -/
theorem pyMod_three_tenths : pyMod (3 / 10) (1 / 2) ≠ 0 := by
  norm_num [pyMod, ratFloor_eq_intFloor]

/-- Concrete evaluation: `0 % 0.5 = 0`. -/
theorem pyMod_zero : pyMod 0 (1 / 2) = 0 := by
  norm_num [pyMod, ratFloor_eq_intFloor]

/-- Concrete evaluation: `0.5 % 0.5 = 0`. -/
theorem pyMod_half : pyMod (1 / 2) (1 / 2) = 0 := by
  norm_num [pyMod, ratFloor_eq_intFloor]

/-- Concrete evaluation: `1 % 0.5 = 0`. -/
theorem pyMod_one : pyMod 1 (1 / 2) = 0 := by
  norm_num [pyMod, ratFloor_eq_intFloor]

/-- Concrete evaluation: `(-0.5) % 0.5 = 0`, so -0.5 is accepted. -/
theorem pyMod_neg_half : pyMod (-1 / 2) (1 / 2) = 0 := by
  norm_num [pyMod, ratFloor_eq_intFloor]

/-- Claim C3: with an in-bounds tile, a `tile_buffer` whose remainder modulo
0.5 is nonzero makes `tile` raise `IncorrectTileBuffer` with no `part` read
(the result is an error, not a `PartCall`); a `tile_buffer` that is a
multiple of 0.5 never raises `IncorrectTileBuffer`. -/
theorem c3_buffer_validation (R : Reader) (x y z ts : Int)
    (idx : Option (List Int)) (expr : Option String) (b : ℚ)
    (kw : Kwargs) (hp : Heap) :
    (R.tileExists x y z = true → pyMod b (1 / 2) ≠ 0 →
      R.tile x y z ts idx expr (some b) kw hp =
        .error (.incorrectTileBuffer bufferMessage)) ∧
    (pyMod b (1 / 2) = 0 →
      ∀ m, R.tile x y z ts idx expr (some b) kw hp ≠
        .error (.incorrectTileBuffer m)) := by
  constructor
  · intro hex hb
    exact tile_buffer_err R x y z ts idx expr b kw hp hex hb
  · intro hb m hm
    by_cases hex : R.tileExists x y z = true
    · rw [tile_ok R x y z ts idx expr (some b) kw hp _ _ hex
        (bufferApply_ok _ _ _ hb)] at hm
      simp at hm
    · rw [tile_outside R x y z ts idx expr (some b) kw hp
        (Bool.eq_false_iff.mpr hex)] at hm
      simp at hm

/-- Witness for C3 at a concrete invalid buffer 0.3 on a covered tile. -/
theorem c3_buffer_validation_witness :
    demoReader.tileExists 0 0 0 = true ∧ pyMod (3 / 10) (1 / 2) ≠ 0 ∧
    demoReader.tile 0 0 0 256 none none (some (3 / 10)) ⟨none, []⟩ [] =
      .error (.incorrectTileBuffer bufferMessage) :=
  ⟨rfl, pyMod_three_tenths,
    (c3_buffer_validation demoReader 0 0 0 256 none none (3 / 10)
      ⟨none, []⟩ []).1 rfl pyMod_three_tenths⟩

/-- Claim C4: for a tile address not covered by the dataset, `tile` raises
`TileOutsideBounds` whose message names z/x/y and the dataset identifier,
and no `part` read is performed (the result is an error, not a `PartCall`). -/
theorem c4_tile_outside_bounds (R : Reader) (x y z ts : Int)
    (idx : Option (List Int)) (expr : Option String) (tb : Option ℚ)
    (kw : Kwargs) (hp : Heap) (h : R.tileExists x y z = false) :
    R.tile x y z ts idx expr tb kw hp =
      .error (.tileOutsideBounds ("Tile " ++ toString z ++ "/" ++
        toString x ++ "/" ++ toString y ++ " is outside " ++ R.input ++
        " bounds")) :=
  tile_outside R x y z ts idx expr tb kw hp h

/-- Witness for C4 at a concrete uncovered tile address. -/
theorem c4_tile_outside_bounds_witness :
    emptyReader.tileExists 1 2 3 = false ∧
    emptyReader.tile 1 2 3 256 none none none ⟨none, []⟩ [] =
      .error (.tileOutsideBounds "Tile 3/1/2 is outside cog.tif bounds") :=
  ⟨rfl, by
    rw [c4_tile_outside_bounds emptyReader 1 2 3 256 none none none
      ⟨none, []⟩ [] rfl]
    rfl⟩

/-- Claim C9: the coverage check precedes buffer validation, so an
uncovered tile together with an invalid buffer raises `TileOutsideBounds`
and never `IncorrectTileBuffer`. -/
theorem c9_outside_before_buffer (R : Reader) (x y z ts : Int)
    (idx : Option (List Int)) (expr : Option String) (b : ℚ)
    (kw : Kwargs) (hp : Heap)
    (h : R.tileExists x y z = false) (hb : pyMod b (1 / 2) ≠ 0) :
    R.tile x y z ts idx expr (some b) kw hp =
      .error (.tileOutsideBounds (outsideMessage R x y z)) ∧
    ∀ m, R.tile x y z ts idx expr (some b) kw hp ≠
      .error (.incorrectTileBuffer m) := by
  refine ⟨tile_outside R x y z ts idx expr (some b) kw hp h, ?_⟩
  intro m hm
  rw [tile_outside R x y z ts idx expr (some b) kw hp h] at hm
  simp at hm

/-- Witness for C9: uncovered tile with invalid buffer 0.3 still reports
`TileOutsideBounds`. -/
theorem c9_outside_before_buffer_witness :
    emptyReader.tileExists 0 0 0 = false ∧ pyMod (3 / 10) (1 / 2) ≠ 0 ∧
    emptyReader.tile 0 0 0 256 none none (some (3 / 10)) ⟨none, []⟩ [] =
      .error (.tileOutsideBounds (outsideMessage emptyReader 0 0 0)) :=
  ⟨rfl, pyMod_three_tenths,
    (c9_outside_before_buffer emptyReader 0 0 0 256 none none (3 / 10)
      ⟨none, []⟩ [] rfl pyMod_three_tenths).1⟩

/-- Counterexample to claim C2 as stated: at `tile_buffer = 0.5` (a multiple
of 0.5 in [0, 5]) the code passes height 257 = 256 + int(0.5 * 2) to `part`,
while the claim's formula `tilesize + 2 * floor(tile_buffer)` yields 256. -/
theorem c2_output_size_counterexample :
    pyMod (1 / 2) (1 / 2) = 0 ∧ (0 : ℚ) ≤ 1 / 2 ∧ (1 / 2 : ℚ) ≤ 5 ∧
    ((demoReader.tile 0 0 0 256 none none (some (1 / 2)) ⟨none, []⟩ []).map
      fun p => p.1.height) = .ok 257 ∧
    256 + 2 * ⌊(1 / 2 : ℚ)⌋ = (256 : Int) ∧ (257 : Int) ≠ 256 := by
  refine ⟨pyMod_half, by norm_num, by norm_num, ?_, by norm_num, by norm_num⟩
  rw [tile_ok demoReader 0 0 0 256 none none (some (1 / 2)) ⟨none, []⟩ [] _ _
    rfl (bufferApply_ok _ _ _ pyMod_half)]
  simp only [Except.map]
  norm_num [ratTrunc, ratFloor_eq_intFloor]

/-- Claim C2 (amended): for an in-bounds tile and a `tile_buffer` that is a
multiple of 0.5 in [0, 5], height and width passed to `part` are both
`tilesize + int(tile_buffer * 2)`, and that quantity equals
`tilesize + 2 * tile_buffer` (truncation applies to `2 * tile_buffer`, not
to `tile_buffer` itself). -/
theorem c2_output_size (R : Reader) (x y z ts : Int)
    (idx : Option (List Int)) (expr : Option String) (b : ℚ)
    (kw : Kwargs) (hp : Heap)
    (hex : R.tileExists x y z = true) (hb : pyMod b (1 / 2) = 0)
    (h0 : 0 ≤ b) (h5 : b ≤ 5) :
    ∃ p h2, R.tile x y z ts idx expr (some b) kw hp = .ok (p, h2) ∧
      p.height = ts + ratTrunc (b * 2) ∧
      p.width = ts + ratTrunc (b * 2) ∧
      ((ts + ratTrunc (b * 2) : Int) : ℚ) = (ts : ℚ) + 2 * b := by
  refine ⟨_, _, tile_ok R x y z ts idx expr (some b) kw hp _ _ hex
    (bufferApply_ok _ _ _ hb), rfl, rfl, ?_⟩
  push_cast
  rw [ratTrunc_two_mul_of_half b hb]

/-- Witness for C2 (amended) at `tile_buffer = 1`: output 258 = 256 + 2. -/
theorem c2_output_size_witness :
    demoReader.tileExists 0 0 0 = true ∧ pyMod 1 (1 / 2) = 0 ∧
    (0 : ℚ) ≤ 1 ∧ (1 : ℚ) ≤ 5 ∧
    ∃ p h2, demoReader.tile 0 0 0 256 none none (some 1) ⟨none, []⟩ [] =
        .ok (p, h2) ∧
      p.height = 256 + ratTrunc ((1 : ℚ) * 2) ∧
      p.width = 256 + ratTrunc ((1 : ℚ) * 2) ∧
      ((256 + ratTrunc ((1 : ℚ) * 2) : Int) : ℚ) = ((256 : Int) : ℚ) + 2 * 1 :=
  ⟨rfl, pyMod_one, by norm_num, by norm_num,
    c2_output_size demoReader 0 0 0 256 none none 1 ⟨none, []⟩ [] rfl pyMod_one
      (by norm_num) (by norm_num)⟩

/-- Claim C5: with an in-bounds tile and a valid `tile_buffer`, the bounding
box handed to `part` is the unbuffered box expanded by `tile_buffer` pixels
at per-axis resolutions `(right-left)/tilesize` and `(top-bottom)/tilesize`
computed from the unbuffered bounds and the original tilesize. -/
theorem c5_buffered_bbox (R : Reader) (x y z ts : Int)
    (idx : Option (List Int)) (expr : Option String) (b : ℚ)
    (kw : Kwargs) (hp : Heap)
    (hex : R.tileExists x y z = true) (hb : pyMod b (1 / 2) = 0)
    (hts : 0 < ts) :
    ∃ p h2, R.tile x y z ts idx expr (some b) kw hp = .ok (p, h2) ∧
      p.bounds = ⟨(R.xyBounds x y z).left -
          ((R.xyBounds x y z).right - (R.xyBounds x y z).left) / (ts : ℚ) * b,
        (R.xyBounds x y z).bottom -
          ((R.xyBounds x y z).top - (R.xyBounds x y z).bottom) / (ts : ℚ) * b,
        (R.xyBounds x y z).right +
          ((R.xyBounds x y z).right - (R.xyBounds x y z).left) / (ts : ℚ) * b,
        (R.xyBounds x y z).top +
          ((R.xyBounds x y z).top - (R.xyBounds x y z).bottom) / (ts : ℚ) * b⟩ :=
  ⟨_, _, tile_ok R x y z ts idx expr (some b) kw hp _ _ hex
    (bufferApply_ok _ _ _ hb), rfl⟩

/-- Witness for C5 at `tile_buffer = 0.5` on the demo reader. -/
theorem c5_buffered_bbox_witness :
    demoReader.tileExists 0 0 0 = true ∧ pyMod (1 / 2) (1 / 2) = 0 ∧
    (0 : Int) < 256 ∧
    ∃ p h2, demoReader.tile 0 0 0 256 none none (some (1 / 2)) ⟨none, []⟩ [] =
        .ok (p, h2) ∧
      p.bounds = ⟨(demoReader.xyBounds 0 0 0).left -
          ((demoReader.xyBounds 0 0 0).right - (demoReader.xyBounds 0 0 0).left) /
            ((256 : Int) : ℚ) * (1 / 2),
        (demoReader.xyBounds 0 0 0).bottom -
          ((demoReader.xyBounds 0 0 0).top - (demoReader.xyBounds 0 0 0).bottom) /
            ((256 : Int) : ℚ) * (1 / 2),
        (demoReader.xyBounds 0 0 0).right +
          ((demoReader.xyBounds 0 0 0).right - (demoReader.xyBounds 0 0 0).left) /
            ((256 : Int) : ℚ) * (1 / 2),
        (demoReader.xyBounds 0 0 0).top +
          ((demoReader.xyBounds 0 0 0).top - (demoReader.xyBounds 0 0 0).bottom) /
            ((256 : Int) : ℚ) * (1 / 2)⟩ :=
  ⟨rfl, pyMod_half, by norm_num,
    c5_buffered_bbox demoReader 0 0 0 256 none none (1 / 2) ⟨none, []⟩ [] rfl
      pyMod_half (by norm_num)⟩

/-- Counterexample to claim C6 as stated: `tile_buffer = 0` is a multiple of
0.5 in [0, 5], yet the extent handed to `part` equals the unbuffered tile
bounds, so it does not strictly contain them. -/
theorem c6_strict_containment_counterexample :
    pyMod 0 (1 / 2) = 0 ∧ (0 : ℚ) ≤ 0 ∧ (0 : ℚ) ≤ 5 ∧
    ((demoReader.tile 0 0 0 256 none none (some 0) ⟨none, []⟩ []).map
      fun p => p.1.bounds) = .ok (demoReader.xyBounds 0 0 0) ∧
    ¬ ((demoReader.xyBounds 0 0 0).left < (demoReader.xyBounds 0 0 0).left) := by
  refine ⟨pyMod_zero, le_refl 0, by norm_num, ?_, lt_irrefl _⟩
  rw [tile_ok demoReader 0 0 0 256 none none (some 0) ⟨none, []⟩ [] _ _
    rfl (bufferApply_ok _ _ _ pyMod_zero)]
  simp only [Except.map]
  norm_num [bufferedBounds, demoReader]

/-- Claim C6 (amended): for an in-bounds tile with nondegenerate bounds and
a `tile_buffer` that is a multiple of 0.5 with `0 < tile_buffer ≤ 5`, the
extent handed to `part` strictly contains the unbuffered tile bounds; at
`tile_buffer = 0` the extent equals the unbuffered bounds instead. -/
theorem c6_strict_containment (R : Reader) (x y z ts : Int)
    (idx : Option (List Int)) (expr : Option String) (b : ℚ)
    (kw : Kwargs) (hp : Heap)
    (hex : R.tileExists x y z = true) (hb : pyMod b (1 / 2) = 0)
    (hpos : 0 < b) (hb5 : b ≤ 5) (hts : 0 < ts)
    (hlr : (R.xyBounds x y z).left < (R.xyBounds x y z).right)
    (hbt : (R.xyBounds x y z).bottom < (R.xyBounds x y z).top) :
    ∃ p h2, R.tile x y z ts idx expr (some b) kw hp = .ok (p, h2) ∧
      p.bounds.left < (R.xyBounds x y z).left ∧
      p.bounds.bottom < (R.xyBounds x y z).bottom ∧
      (R.xyBounds x y z).right < p.bounds.right ∧
      (R.xyBounds x y z).top < p.bounds.top := by
  have hts2 : (0 : ℚ) < (ts : ℚ) := by exact_mod_cast hts
  have hx := mul_pos (div_pos (sub_pos.mpr hlr) hts2) hpos
  have hy := mul_pos (div_pos (sub_pos.mpr hbt) hts2) hpos
  refine ⟨_, _, tile_ok R x y z ts idx expr (some b) kw hp _ _ hex
    (bufferApply_ok _ _ _ hb), ?_, ?_, ?_, ?_⟩ <;>
    simp only [bufferedBounds] <;> linarith

/-- Witness for C6 (amended) at `tile_buffer = 0.5` on the demo reader. -/
theorem c6_strict_containment_witness :
    demoReader.tileExists 0 0 0 = true ∧ pyMod (1 / 2) (1 / 2) = 0 ∧
    (0 : ℚ) < 1 / 2 ∧ (1 / 2 : ℚ) ≤ 5 ∧ (0 : Int) < 256 ∧
    (demoReader.xyBounds 0 0 0).left < (demoReader.xyBounds 0 0 0).right ∧
    (demoReader.xyBounds 0 0 0).bottom < (demoReader.xyBounds 0 0 0).top ∧
    ∃ p h2, demoReader.tile 0 0 0 256 none none (some (1 / 2)) ⟨none, []⟩ [] =
        .ok (p, h2) ∧
      p.bounds.left < (demoReader.xyBounds 0 0 0).left ∧
      p.bounds.bottom < (demoReader.xyBounds 0 0 0).bottom ∧
      (demoReader.xyBounds 0 0 0).right < p.bounds.right ∧
      (demoReader.xyBounds 0 0 0).top < p.bounds.top :=
  ⟨rfl, pyMod_half, by norm_num, by norm_num, by norm_num,
    by norm_num [demoReader], by norm_num [demoReader],
    c6_strict_containment demoReader 0 0 0 256 none none (1 / 2) ⟨none, []⟩ []
      rfl pyMod_half (by norm_num) (by norm_num) (by norm_num)
      (by norm_num [demoReader]) (by norm_num [demoReader])⟩

/-- Claim C7: the delegated `part` call receives the (possibly buffered)
bounding box, destination CRS equal to the tiling scheme's CRS,
`bounds_crs = None` (the box is already in the destination CRS), height and
width both equal to the (possibly buffered) output size, `max_size = None`,
the band indexes and expression unmodified, the remaining caller options,
and vrt-options in which every caller-supplied key other than `"cutline"`
keeps its value while `"cutline"` is always the derived cutline. -/
theorem c7_part_arguments (R : Reader) (x y z ts : Int)
    (idx : Option (List Int)) (expr : Option String) (tb : Option ℚ)
    (kw : Kwargs) (hp : Heap) (bds : BBox) (sz : Int)
    (hex : R.tileExists x y z = true)
    (hok : bufferApply (R.xyBounds x y z) ts tb = .ok (bds, sz)) :
    ∃ p h2, R.tile x y z ts idx expr tb kw hp = .ok (p, h2) ∧
      p.bounds = bds ∧ p.dst_crs = R.tmsCRS ∧ p.bounds_crs = none ∧
      p.height = sz ∧ p.width = sz ∧ p.max_size = none ∧
      p.indexes = idx ∧ p.expression = expr ∧ p.kwargs = kw.rest ∧
      dictGet p.vrt_options "cutline" = some (tileCut R bds) ∧
      ∀ q, q ≠ "cutline" →
        dictGet p.vrt_options q = dictGet (callerDict kw hp) q := by
  refine ⟨_, _, tile_ok R x y z ts idx expr tb kw hp bds sz hex hok,
    rfl, rfl, rfl, rfl, rfl, rfl, rfl, rfl, rfl, ?_, ?_⟩
  · exact dictGet_dictInsert_self _ _ _
  · intro q hq
    exact dictGet_dictInsert_ne _ _ _ q hq

/-- Witness for C7: a caller-supplied vrt-options dict with an old cutline
and a nodata entry; the nodata entry survives, the cutline is overwritten. -/
theorem c7_part_arguments_witness :
    demoReader.tileExists 0 0 0 = true ∧
    bufferApply (demoReader.xyBounds 0 0 0) 256 none =
      .ok (⟨0, 0, 256, 256⟩, 256) ∧
    ∃ p h2, demoReader.tile 0 0 0 256 (some [1, 2]) (some "b1/b2") none
        ⟨some 0, [("resampling", "bilinear")]⟩
        [[("cutline", "OLD"), ("nodata", "0")]] = .ok (p, h2) ∧
      p.dst_crs = demoReader.tmsCRS ∧ p.bounds_crs = none ∧
      p.height = 256 ∧ p.width = 256 ∧ p.max_size = none ∧
      p.indexes = some [1, 2] ∧ p.expression = some "b1/b2" ∧
      p.kwargs = [("resampling", "bilinear")] ∧
      dictGet p.vrt_options "cutline" =
        some (tileCut demoReader ⟨0, 0, 256, 256⟩) ∧
      dictGet p.vrt_options "nodata" = some "0" := by
  refine ⟨rfl, rfl, ?_⟩
  obtain ⟨p, h2, heq, hbds, hcrs, hbc, hh, hw, hms, hidx, hexp, hkw, hcut,
    hother⟩ :=
    c7_part_arguments demoReader 0 0 0 256 (some [1, 2]) (some "b1/b2") none
      ⟨some 0, [("resampling", "bilinear")]⟩
      [[("cutline", "OLD"), ("nodata", "0")]] ⟨0, 0, 256, 256⟩ 256 rfl rfl
  refine ⟨p, h2, heq, hcrs, hbc, hh, hw, hms, hidx, hexp, hkw, hcut, ?_⟩
  rw [hother "nodata" (by decide)]
  rfl

/-- Claim C8: a negative `tile_buffer` that is a multiple of 0.5 passes the
`% 0.5` check (no `IncorrectTileBuffer`), shrinks the bounding box inward on
every side, and reduces the output size below the requested tilesize. -/
theorem c8_negative_buffer (R : Reader) (x y z ts : Int)
    (idx : Option (List Int)) (expr : Option String) (b : ℚ)
    (kw : Kwargs) (hp : Heap)
    (hex : R.tileExists x y z = true) (hb : pyMod b (1 / 2) = 0)
    (hneg : b < 0) (hts : 0 < ts)
    (hlr : (R.xyBounds x y z).left < (R.xyBounds x y z).right)
    (hbt : (R.xyBounds x y z).bottom < (R.xyBounds x y z).top) :
    ∃ p h2, R.tile x y z ts idx expr (some b) kw hp = .ok (p, h2) ∧
      (R.xyBounds x y z).left < p.bounds.left ∧
      (R.xyBounds x y z).bottom < p.bounds.bottom ∧
      p.bounds.right < (R.xyBounds x y z).right ∧
      p.bounds.top < (R.xyBounds x y z).top ∧
      p.height < ts := by
  have hts2 : (0 : ℚ) < (ts : ℚ) := by exact_mod_cast hts
  have hx := mul_neg_of_pos_of_neg (div_pos (sub_pos.mpr hlr) hts2) hneg
  have hy := mul_neg_of_pos_of_neg (div_pos (sub_pos.mpr hbt) hts2) hneg
  have htr : ((ratTrunc (b * 2) : Int) : ℚ) < 0 := by
    rw [ratTrunc_two_mul_of_half b hb]
    linarith
  have htr2 : ratTrunc (b * 2) < 0 := by exact_mod_cast htr
  refine ⟨_, _, tile_ok R x y z ts idx expr (some b) kw hp _ _ hex
    (bufferApply_ok _ _ _ hb), ?_, ?_, ?_, ?_, ?_⟩ <;>
    simp only [bufferedBounds]
  · linarith
  · linarith
  · linarith
  · linarith
  · omega

/-- Witness for C8 at `tile_buffer = -0.5`: accepted, box shrunk, output
255. -/
theorem c8_negative_buffer_witness :
    demoReader.tileExists 0 0 0 = true ∧ pyMod (-1 / 2) (1 / 2) = 0 ∧
    (-1 / 2 : ℚ) < 0 ∧ (0 : Int) < 256 ∧
    ∃ p h2, demoReader.tile 0 0 0 256 none none (some (-1 / 2)) ⟨none, []⟩ [] =
        .ok (p, h2) ∧
      (demoReader.xyBounds 0 0 0).left < p.bounds.left ∧
      (demoReader.xyBounds 0 0 0).bottom < p.bounds.bottom ∧
      p.bounds.right < (demoReader.xyBounds 0 0 0).right ∧
      p.bounds.top < (demoReader.xyBounds 0 0 0).top ∧
      p.height < 256 :=
  ⟨rfl, pyMod_neg_half, by norm_num, by norm_num,
    c8_negative_buffer demoReader 0 0 0 256 none none (-1 / 2) ⟨none, []⟩ []
      rfl pyMod_neg_half (by norm_num) (by norm_num)
      (by norm_num [demoReader]) (by norm_num [demoReader])⟩

/-- Claim C10: when the caller supplies a `vrt_options` dict, `tile` mutates
that dict object in place: the heap keeps its length (no new object replaces
the caller's), the object at the caller's reference afterwards is the old
dict with `"cutline"` set to the derived cutline, that very object is what
`part` receives, and every other heap object is untouched. -/
theorem c10_inplace_vrt_update (R : Reader) (x y z ts : Int)
    (idx : Option (List Int)) (expr : Option String) (tb : Option ℚ)
    (rest : List (String × String)) (r : Nat) (hp : Heap)
    (bds : BBox) (sz : Int)
    (hex : R.tileExists x y z = true)
    (hok : bufferApply (R.xyBounds x y z) ts tb = .ok (bds, sz))
    (hr : r < hp.length) :
    ∃ p h2, R.tile x y z ts idx expr tb ⟨some r, rest⟩ hp = .ok (p, h2) ∧
      h2.length = hp.length ∧
      heapGet h2 r = dictInsert (heapGet hp r) "cutline" (tileCut R bds) ∧
      p.vrt_options = heapGet h2 r ∧
      dictGet (heapGet h2 r) "cutline" = some (tileCut R bds) ∧
      ∀ r2, r2 ≠ r → heapGet h2 r2 = heapGet hp r2 := by
  refine ⟨_, _,
    tile_ok R x y z ts idx expr tb ⟨some r, rest⟩ hp bds sz hex hok,
    ?_, ?_, ?_, ?_, ?_⟩
  · simp [heapAfter, heapSet]
  · exact heapGet_heapSet_self hp r _ hr
  · exact (heapGet_heapSet_self hp r _ hr).symm
  · show dictGet
        (heapGet (heapSet hp r (mergedVrt R bds ⟨some r, rest⟩ hp)) r)
        "cutline" = some (tileCut R bds)
    rw [heapGet_heapSet_self hp r _ hr]
    exact dictGet_dictInsert_self _ _ _
  · intro r2 hr2
    exact heapGet_heapSet_ne hp r _ r2 hr2

/-- Witness for C10: a one-object heap; after the call the caller's dict
holds the derived cutline. -/
theorem c10_inplace_vrt_update_witness :
    demoReader.tileExists 0 0 0 = true ∧
    bufferApply (demoReader.xyBounds 0 0 0) 256 none =
      .ok (⟨0, 0, 256, 256⟩, 256) ∧
    (0 : Nat) < ([[("nodata", "0")]] : Heap).length ∧
    ∃ p h2, demoReader.tile 0 0 0 256 none none none ⟨some 0, []⟩
        [[("nodata", "0")]] = .ok (p, h2) ∧
      h2.length = 1 ∧
      p.vrt_options = heapGet h2 0 ∧
      dictGet (heapGet h2 0) "cutline" =
        some (tileCut demoReader ⟨0, 0, 256, 256⟩) := by
  refine ⟨rfl, rfl, by decide, ?_⟩
  obtain ⟨p, h2, heq, hlen, hobj, hpv, hcut, hoth⟩ :=
    c10_inplace_vrt_update demoReader 0 0 0 256 none none none [] 0
      [[("nodata", "0")]] ⟨0, 0, 256, 256⟩ 256 rfl rfl (by decide)
  exact ⟨p, h2, heq, hlen, hpv, hcut⟩

/-- Claim C1: for any bounding box of positive width (as every box the tile
method uses has), the cutline ring has exactly 36 vertices; in
increasing-angle order the k-th vertex (k = 0..35, angle 10*k degrees) is
`(cx + rad * cos θ, cy + rad * sin θ)` with `cx = (left+right)/2`,
`cy = (bottom+top)/2`, `rad = (right-left)/2`; and the ring does not repeat
its first vertex at the end. -/
theorem c1_circle_ring (l bo r t : ℝ) (h : l < r) :
    (circleRing l bo r t).length = 36 ∧
    circleRing l bo r t = (List.range 36).map (fun k : ℕ =>
      ((l + r) / 2 + (r - l) / 2 * Real.cos (10 * (k : ℝ) * Real.pi / 180),
       (bo + t) / 2 + (r - l) / 2 * Real.sin (10 * (k : ℝ) * Real.pi / 180))) ∧
    (circleRing l bo r t).getLast? ≠ (circleRing l bo r t).head? := by
  have hlist : List.range' 0 36 10 = (List.range 36).map fun k => 10 * k := by
    decide
  have hmain : circleRing l bo r t = (List.range 36).map (fun k : ℕ =>
      ((l + r) / 2 + (r - l) / 2 * Real.cos (10 * (k : ℝ) * Real.pi / 180),
       (bo + t) / 2 + (r - l) / 2 * Real.sin (10 * (k : ℝ) * Real.pi / 180))) := by
    unfold circleRing
    rw [hlist, List.map_map]
    refine List.map_congr_left ?_
    intro k _
    simp only [Function.comp, mathRadians]
    push_cast
    ring_nf
  refine ⟨?_, hmain, ?_⟩
  · rw [hmain]
    simp
  · rw [hmain, List.getLast?_map, List.head?_map]
    have h0 : (List.range 36).head? = some 0 := by decide
    have h35 : (List.range 36).getLast? = some 35 := by decide
    rw [h0, h35]
    simp only [Option.map_some']
    intro heq
    have h2 := congrArg Prod.snd (Option.some_inj.mp heq)
    simp only [Prod.snd] at h2
    have hzero : (10 : ℝ) * ((0 : ℕ) : ℝ) * Real.pi / 180 = 0 := by
      norm_num
    have hangle : (10 : ℝ) * ((35 : ℕ) : ℝ) * Real.pi / 180 =
        2 * Real.pi - Real.pi / 18 := by
      push_cast
      ring
    rw [hzero, hangle, Real.sin_zero, mul_zero] at h2
    have hsin : Real.sin (2 * Real.pi - Real.pi / 18) =
        -Real.sin (Real.pi / 18) := by
      rw [Real.sin_sub, Real.sin_two_pi, Real.cos_two_pi]
      ring
    rw [hsin] at h2
    have hp : 0 < Real.sin (Real.pi / 18) :=
      Real.sin_pos_of_pos_of_lt_pi (by positivity)
        (div_lt_self Real.pi_pos (by norm_num))
    have hrad : 0 < (r - l) / 2 := by linarith
    nlinarith [mul_pos hrad hp, h2]

/-- Witness for C1 on the unit box. -/
theorem c1_circle_ring_witness :
    (0 : ℝ) < 1 ∧
    ((circleRing 0 0 1 1).length = 36 ∧
      circleRing 0 0 1 1 = (List.range 36).map (fun k : ℕ =>
        ((0 + 1) / 2 + (1 - 0) / 2 * Real.cos (10 * (k : ℝ) * Real.pi / 180),
         (0 + 1) / 2 + (1 - 0) / 2 * Real.sin (10 * (k : ℝ) * Real.pi / 180))) ∧
      (circleRing 0 0 1 1).getLast? ≠ (circleRing 0 0 1 1).head?) :=
  ⟨zero_lt_one, c1_circle_ring 0 0 1 1 zero_lt_one⟩
